import Mathlib

/-!
# Verification of the voxtranslate room/presence server (`src/server.js`)

Shallow embedding of the room/presence lifecycle manager from `server.js`:
room store (a JS `Map` keyed by room code), join/heartbeat/speech handlers,
the disconnect departure check scheduled with `setTimeout` (20 s short grace),
the empty-room deletion timer (5 min long grace), the periodic cleanup sweep
(Janitor), and the retrying translation gateway `translateText`.

Timers are modelled explicitly: a `setTimeout` call appends a pending record
(carrying exactly the data the JS closure captures: room code, the user-list
index at disconnect time, the display name and the disconnect-time socket id)
to a queue, and a separate step fires it.  Executions are lists of steps folded
over the server state; the theorems pick temporally consistent step lists
(timers fire in schedule order, 20 s after their disconnect).

The remote Gemini call inside `translateText` is abstracted as an oracle
mapping `(text, fromLang, toLang, attemptIndex)` to a result or an error
message; everything else is translated directly from the JavaScript.
-/

set_option autoImplicit false

namespace VoxTranslate

/-- A presence entry, `{ id: socket.id, name: userName }` in `server.js`. -/
structure User where
  id : String
  name : String
  deriving DecidableEq, Repr

/-- A room object as stored in the `rooms` map by `/api/create-room`:
`{ translationDirection, users, createdAt, lastActivity }`.  Timestamps are
milliseconds (`Date` values); `translationDirection` is whatever the request
body held, possibly absent (`undefined`), hence `Option String`. -/
structure Room where
  translationDirection : Option String
  users : List User
  createdAt : Nat
  lastActivity : Nat
  deriving DecidableEq, Repr

/-- The room store `const rooms = new Map()`, as an association list with
JS `Map` semantics (unique keys; `set` overwrites in place). -/
abbrev Rooms := List (String × Room)

/-- `rooms.get(code)`. -/
def roomsGet (rs : Rooms) (code : String) : Option Room :=
  (rs.find? (fun p => p.1 == code)).map (·.2)

/-- `rooms.set(code, room)`: overwrite the entry in place if the key is
present, otherwise append. -/
def roomsSet : Rooms → String → Room → Rooms
  | [], code, r => [(code, r)]
  | (c, old) :: rest, code, r =>
    if c == code then (code, r) :: rest else (c, old) :: roomsSet rest code r

/-- `rooms.delete(code)`.  On the reachable states all keys are distinct, so
removing every binding of `code` coincides with `Map.delete`. -/
def roomsDelete (rs : Rooms) (code : String) : Rooms :=
  rs.filter (fun p => p.1 != code)

/-- `rooms.has(code)`, the body of `GET /api/check-room/:roomCode`. -/
def checkRoom (rs : Rooms) (code : String) : Bool :=
  (roomsGet rs code).isSome

/-- `generateRoomCode()`: `Math.floor(100000 + Math.random() * 900000)`,
with the random draw supplied as a number `r` (`r % 900000` standing for
`Math.floor(Math.random() * 900000)`). -/
def generateRoomCode (r : Nat) : String :=
  toString (100000 + r % 900000)

/-! ## Translation gateway (`translateText`) -/

/-- Outcome of one `translateText` call: the returned string, how many
attempts were made, and the waits (`1000 * retries` ms) performed between
attempts. -/
structure TranslateResult where
  result : String
  attemptsMade : Nat
  delays : List Nat
  deriving DecidableEq, Repr

/-- The retry loop of `translateText` (`while (retries < maxRetries)`), with
the remote call abstracted as `call : Nat → Except String String` giving each
attempt's outcome (indexed by the value of `retries` at the attempt).  The
first argument is the fuel `maxRetries - retries`, which the loop structure
keeps positive until one of the two `return` statements runs; the fuel-zero
branch corresponds to falling off the `while` loop (unreachable from
`translateText`). -/
def translateTextGo (call : Nat → Except String String) :
    Nat → Nat → List Nat → TranslateResult
  | 0, retries, delays => ⟨"", retries, delays⟩
  | _fuel + 1, retries, delays =>
    match call retries with
    | Except.ok t => ⟨t.trim, retries + 1, delays⟩
    | Except.error msg =>
      let r := retries + 1
      if r ≥ 3 then
        ⟨"[Translation unavailable: " ++ msg ++ "]", r, delays⟩
      else
        translateTextGo call _fuel r (delays ++ [1000 * r])

/-- `translateText(text, fromLang, toLang)` with `maxRetries = 3`.  The
oracle receives the same data the Gemini prompt carries — the text and the
language pair — plus the attempt index.  The Lean function is total: it
always returns a `TranslateResult`, mirroring that the JS function resolves
(never rejects) on every path. -/
def translateText (text fromLang toLang : String)
    (call : String → String → String → Nat → Except String String) :
    TranslateResult :=
  translateTextGo (call text fromLang toLang) 3 0 []

/-! ## Socket handlers and timers -/

/-- Events emitted by the server (socket.io `emit` calls).  `translatedSpeech`
stands for `socket.to(roomCode).emit('translated-speech', …)`: a broadcast to
every member of the socket room except the sender, whose exclusion semantics
is captured by `broadcastRecipients`. -/
inductive OutEvent where
  | errorEvt (toSocket message : String)
  | roomJoined (toSocket roomCode : String) (dir : Option String) (users : List User)
  | userJoined (roomCode userId userName : String) (users : List User)
  | userLeft (roomCode userId userName : String) (users : List User)
  | heartbeatAck (toSocket : String)
  | translatedSpeech (roomCode senderId originalText translatedText : String)
  deriving DecidableEq, Repr

/-- Delivery of a `socket.to(room).emit` broadcast: everyone currently in the
socket room except the sender. -/
def broadcastRecipients (members : List String) (senderId : String) : List String :=
  members.filter (fun m => m != senderId)

/-- A departure check scheduled by the `disconnect` handler's `setTimeout`,
carrying exactly what the JS closure reads at fire time: `currentRoom`,
`userIndex` (the index found at disconnect time), `user.name`, and the
disconnecting `socket.id`.  `fireTime` is schedule time + 20 000 ms. -/
structure PendingCheck where
  roomCode : String
  userIndex : Nat
  userName : String
  socketId : String
  fireTime : Nat
  deriving DecidableEq, Repr

/-- An empty-room deletion scheduled inside the departure check,
`fireTime` = the check's fire time + 300 000 ms. -/
structure PendingDeletion where
  roomCode : String
  fireTime : Nat
  deriving DecidableEq, Repr

/-- The server's mutable state: the room store, the queues of not-yet-fired
timers, and the log of emitted events. -/
structure ServerState where
  rooms : Rooms
  checks : List PendingCheck
  deletions : List PendingDeletion
  events : List OutEvent
  deriving DecidableEq, Repr

def initialState : ServerState := ⟨[], [], [], []⟩

/-- `POST /api/create-room`: unconditionally `rooms.set(roomCode, …)` with an
empty user list and fresh timestamps, then respond `{ roomCode }`.  The
generated code is a parameter (randomness oracle); no collision check is
performed.  Returns the new state and the response body's room code. -/
def createRoom (st : ServerState) (roomCode : String) (dir : Option String)
    (now : Nat) : ServerState × String :=
  ({ st with rooms := roomsSet st.rooms roomCode ⟨dir, [], now, now⟩ }, roomCode)

/-- `room.users[existingUserIndex].id = socket.id`: overwrite the `id` field
of the entry at the given index, leaving everything else in place. -/
def setUserId : List User → Nat → String → List User
  | [], _, _ => []
  | u :: us, 0, sid => { u with id := sid } :: us
  | u :: us, n + 1, sid => u :: setUserId us n sid

/-- The user-list update of the `join-room` handler: look up the display name
with `findIndex`; on a hit overwrite that entry's socket id (reconnection),
otherwise push a fresh entry. -/
def joinUsers (users : List User) (userName socketId : String) : List User :=
  match users.findIdx? (fun u => u.name == userName) with
  | some i => setUserId users i socketId
  | none => users ++ [⟨socketId, userName⟩]

/-- `socket.on('join-room')`: if the room is absent emit `error`; otherwise
update the user list via `joinUsers`, set `lastActivity`, emit `room-joined`
to the caller and `user-joined` to the room. -/
def joinRoom (st : ServerState) (roomCode userName socketId : String)
    (now : Nat) : ServerState :=
  match roomsGet st.rooms roomCode with
  | none => { st with events := st.events ++ [.errorEvt socketId "Room not found"] }
  | some room =>
    let users := joinUsers room.users userName socketId
    let room' := { room with users := users, lastActivity := now }
    { st with
        rooms := roomsSet st.rooms roomCode room',
        events := st.events ++
          [.roomJoined socketId roomCode room.translationDirection users,
           .userJoined roomCode socketId userName users] }

/-- `socket.on('heartbeat')`: refresh `lastActivity` and ack if the room
exists, otherwise do nothing. -/
def heartbeat (st : ServerState) (roomCode socketId : String) (now : Nat) :
    ServerState :=
  match roomsGet st.rooms roomCode with
  | none => st
  | some room =>
    { st with
        rooms := roomsSet st.rooms roomCode { room with lastActivity := now },
        events := st.events ++ [.heartbeatAck socketId] }

/-- `socket.on('disconnect')`: with `currentRoom` the socket's session room,
look the user up by `socket.id`; if found, schedule a departure check 20 s
out, capturing the index, name and socket id found now. -/
def disconnect (st : ServerState) (currentRoom : Option String)
    (socketId : String) (now : Nat) : ServerState :=
  match currentRoom with
  | none => st
  | some code =>
    match roomsGet st.rooms code with
    | none => st
    | some room =>
      match room.users.findIdx? (fun u => u.id == socketId) with
      | none => st
      | some i =>
        match room.users.get? i with
        | none => st
        | some user =>
          { st with checks := st.checks ++ [⟨code, i, user.name, socketId, now + 20000⟩] }

/-- The body of the departure-check `setTimeout`: recompute `reconnected`
from the current user list; if false, `splice(userIndex, 1)` **at the index
captured at disconnect time** (`List.eraseIdx` has exactly `splice(i, 1)`
semantics: out-of-range indices remove nothing), emit `user-left`, and if the
list is now empty schedule the 5-minute room deletion. -/
def fireCheck (st : ServerState) (c : PendingCheck) : ServerState :=
  match roomsGet st.rooms c.roomCode with
  | none => st
  | some room =>
    let reconnected := room.users.any (fun u => u.name == c.userName && u.id != c.socketId)
    if reconnected then st
    else
      let users := room.users.eraseIdx c.userIndex
      let st' :=
        { st with
            rooms := roomsSet st.rooms c.roomCode { room with users := users },
            events := st.events ++ [.userLeft c.roomCode c.socketId c.userName users] }
      if users.length == 0 then
        { st' with deletions := st'.deletions ++ [⟨c.roomCode, c.fireTime + 300000⟩] }
      else st'

/-- The body of the empty-room deletion `setTimeout`:
`if (rooms.get(currentRoom)?.users.length === 0) rooms.delete(currentRoom)`. -/
def fireDeletion (st : ServerState) (d : PendingDeletion) : ServerState :=
  match roomsGet st.rooms d.roomCode with
  | none => st
  | some room =>
    if room.users.length == 0 then
      { st with rooms := roomsDelete st.rooms d.roomCode }
    else st

/-- Language-pair resolution in the `speech-data` handler: the single branch
`if (room.translationDirection === 'en-to-hi')`, everything else falling to
the `else`. -/
def resolveLangs (dir : Option String) : String × String :=
  if dir == some "en-to-hi" then ("English", "Hindi") else ("Hindi", "English")

/-- `socket.on('speech-data')`: absent room emits `error` to the sender;
otherwise refresh `lastActivity`, resolve the language pair, translate, and
broadcast `translated-speech` to the room excluding the sender.  The `catch`
branch is unreachable in the model because `translateText` is total. -/
def speechData (st : ServerState) (senderId roomCode text : String)
    (call : String → String → String → Nat → Except String String)
    (now : Nat) : ServerState :=
  match roomsGet st.rooms roomCode with
  | none => { st with events := st.events ++ [.errorEvt senderId "Room not found"] }
  | some room =>
    let langs := resolveLangs room.translationDirection
    let translated := (translateText text langs.1 langs.2 call).result
    { st with
        rooms := roomsSet st.rooms roomCode { room with lastActivity := now },
        events := st.events ++ [.translatedSpeech roomCode senderId text translated] }

/-- `setInterval` cleanup sweep: delete every room with
`now - lastActivity > 3600000 && users.length === 0`.  `Nat` subtraction
truncates at zero exactly when the JS difference would be negative, and a
negative difference also fails the `> 3600000` test, so the guards agree. -/
def cleanupSweep (now : Nat) (rs : Rooms) : Rooms :=
  rs.filter (fun p => !(decide (now - p.2.lastActivity > 3600000) && p.2.users.length == 0))

/-- One atomic event of an execution: an input handler runs, or a previously
scheduled timer (addressed by queue position) fires and leaves the queue. -/
inductive Step where
  | create (roomCode : String) (dir : Option String) (now : Nat)
  | join (roomCode userName socketId : String) (now : Nat)
  | hb (roomCode socketId : String) (now : Nat)
  | disc (currentRoom : Option String) (socketId : String) (now : Nat)
  | fireCheckAt (i : Nat)
  | fireDeletionAt (i : Nat)
  | sweep (now : Nat)
  deriving Repr

def runStep (st : ServerState) : Step → ServerState
  | .create code dir now => (createRoom st code dir now).1
  | .join code name sid now => joinRoom st code name sid now
  | .hb code sid now => heartbeat st code sid now
  | .disc cur sid now => disconnect st cur sid now
  | .fireCheckAt i =>
    match st.checks.get? i with
    | none => st
    | some c => fireCheck { st with checks := st.checks.eraseIdx i } c
  | .fireDeletionAt i =>
    match st.deletions.get? i with
    | none => st
    | some d => fireDeletion { st with deletions := st.deletions.eraseIdx i } d
  | .sweep now => { st with rooms := cleanupSweep now st.rooms }

/-- Run an execution: fold the steps over the state. -/
def run (st : ServerState) (steps : List Step) : ServerState :=
  steps.foldl runStep st

/-! ## A concrete execution exercising the departure check

Room `111111` holds alice, bob and carol (joined in that order).  Alice
disconnects at t = 1 s, bob at t = 2 s, carol at t = 3 s; carol rejoins at
t = 10 s (within her 20-second grace window) under the new socket id `sC2`.
The three departure checks then fire in schedule order at t = 21 s, 22 s and
23 s (`fireCheckAt 0` always fires the oldest pending check).  Every step is
listed in strictly increasing time order, and each check fires exactly
20 000 ms after its disconnect, so the trace is a temporally consistent run
of the server. -/

/-- Steps up to and including bob's departure check (fires at t = 22 s). -/
def traceToBobCheck : List Step :=
  [ .create "111111" (some "en-to-hi") 0,
    .join "111111" "alice" "sA" 100,
    .join "111111" "bob" "sB" 200,
    .join "111111" "carol" "sC" 300,
    .disc (some "111111") "sA" 1000,
    .disc (some "111111") "sB" 2000,
    .disc (some "111111") "sC" 3000,
    .join "111111" "carol" "sC2" 10000,
    .fireCheckAt 0,
    .fireCheckAt 0 ]

/-- The same execution continued with carol's departure check (t = 23 s). -/
def traceToCarolCheck : List Step :=
  traceToBobCheck ++ [.fireCheckAt 0]

/-- A room created at t = 0 and never joined, observed at t = 6 min
(> the 5-minute long grace window) when the cleanup sweep also runs. -/
def neverJoinedTrace : List Step :=
  [ .create "222222" (some "en-to-hi") 0,
    .sweep 360000 ]

end VoxTranslate

namespace VoxTranslate

/-! ## Helper lemmas about the store and user-list primitives -/

theorem setUserId_length (l : List User) (i : Nat) (sid : String) :
    (setUserId l i sid).length = l.length := by
  induction l generalizing i with
  | nil => rfl
  | cons u us ih =>
    cases i with
    | zero => rfl
    | succ n => simp [setUserId, ih]

theorem setUserId_names (l : List User) (i : Nat) (sid : String) :
    (setUserId l i sid).map User.name = l.map User.name := by
  induction l generalizing i with
  | nil => rfl
  | cons u us ih =>
    cases i with
    | zero => rfl
    | succ n => simp [setUserId, ih]

theorem setUserId_get? (l : List User) (i : Nat) (sid : String) :
    (setUserId l i sid).get? i = (l.get? i).map (fun u => { u with id := sid }) := by
  induction l generalizing i with
  | nil => cases i <;> rfl
  | cons u us ih =>
    cases i with
    | zero => rfl
    | succ n => simpa [setUserId] using ih n

theorem roomsGet_roomsSet_self (rs : Rooms) (code : String) (r : Room) :
    roomsGet (roomsSet rs code r) code = some r := by
  induction rs with
  | nil => simp [roomsSet, roomsGet, List.find?]
  | cons p rest ih =>
    obtain ⟨c, old⟩ := p
    by_cases h : c = code
    · subst h
      simp [roomsSet, roomsGet, List.find?]
    · have hb : (c == code) = false := beq_false_of_ne h
      simp only [roomsSet, hb, Bool.false_eq_true, if_false]
      simpa [roomsGet, List.find?, hb] using ih

theorem roomsGet_roomsDelete_self (rs : Rooms) (code : String) :
    roomsGet (roomsDelete rs code) code = none := by
  induction rs with
  | nil => rfl
  | cons p rest ih =>
    obtain ⟨c, old⟩ := p
    by_cases h : c = code
    · subst h
      simpa [roomsDelete] using ih
    · have hb : (c == code) = false := beq_false_of_ne h
      simp only [roomsDelete, List.filter_cons, bne, hb, Bool.not_false, if_true]
      simp only [roomsGet, List.find?, hb]
      exact ih

theorem eraseIdx_name_ne (l : List User) (i : Nat) (u : User)
    (hget : l.get? i = some u) (hnd : (l.map User.name).Nodup) :
    ∀ v ∈ l.eraseIdx i, v.name ≠ u.name := by
  induction l generalizing i with
  | nil => simp at hget
  | cons x xs ih =>
    have hx : x.name ∉ xs.map User.name := by
      simpa using (List.nodup_cons.mp hnd).1
    cases i with
    | zero =>
      have hxu : x = u := by simpa using hget
      intro v hv hEq
      have hvmem : v.name ∈ xs.map User.name :=
        List.mem_map_of_mem User.name (by simpa using hv)
      have hum : u.name ∈ xs.map User.name := hEq ▸ hvmem
      rw [← hxu] at hum
      exact hx hum
    | succ n =>
      have hmem : u ∈ xs := List.get?_mem (by simpa using hget)
      intro v hv
      have hv2 : v = x ∨ v ∈ xs.eraseIdx n := by simpa [List.eraseIdx] using hv
      rcases hv2 with rfl | hv'
      · intro hEq
        have hum : u.name ∈ xs.map User.name := List.mem_map_of_mem User.name hmem
        rw [← hEq] at hum
        exact hx hum
      · exact ih n (by simpa using hget) (List.nodup_cons.mp hnd).2 v hv'

theorem joinUsers_of_absent (users : List User) (userName socketId : String)
    (h : ∀ u ∈ users, u.name ≠ userName) :
    joinUsers users userName socketId = users ++ [⟨socketId, userName⟩] := by
  have hidx : users.findIdx? (fun u => u.name == userName) = none :=
    List.findIdx?_eq_none_iff.mpr (fun u hu => by simpa using h u hu)
  simp [joinUsers, hidx]

theorem joinUsers_length_of_present (users : List User) (userName socketId : String)
    (h : ∃ u ∈ users, u.name = userName) :
    (joinUsers users userName socketId).length = users.length := by
  obtain ⟨u, hu, hn⟩ := h
  cases hidx : users.findIdx? (fun v => v.name == userName) with
  | none =>
    have := List.findIdx?_eq_none_iff.mp hidx u hu
    simp [hn] at this
  | some i => simp [joinUsers, hidx, setUserId_length]

theorem joinUsers_names_nodup (users : List User) (userName socketId : String)
    (h : (users.map User.name).Nodup) :
    ((joinUsers users userName socketId).map User.name).Nodup := by
  cases hidx : users.findIdx? (fun v => v.name == userName) with
  | none =>
    have habs : userName ∉ users.map User.name := by
      intro hmem
      obtain ⟨u, hu, hn⟩ := List.mem_map.mp hmem
      have := List.findIdx?_eq_none_iff.mp hidx u hu
      simp [hn] at this
    simp only [joinUsers, hidx, List.map_append, List.map_cons, List.map_nil]
    simpa [List.nodup_append, h] using habs
  | some i =>
    simpa only [joinUsers, hidx, setUserId_names] using h

/-- **C1.** Refuted on the code: the departure check re-reads the room only
for the `reconnected` test and then executes `room.users.splice(userIndex, 1)`
with the index captured at disconnect time.  In `traceToBobCheck`, alice's
check (t = 21 s) has already removed index 0, so when bob's check (t = 22 s)
fires with its captured `userIndex = 1` and `reconnected = false`, it splices
out *carol's* entry and leaves bob's: the final user list is
`[⟨sB, bob⟩]` — the claim demanded `[⟨sC2, carol⟩]` — while the `user-left`
for bob is nevertheless emitted. -/
theorem departure_check_removes_wrong_entry :
    (roomsGet (run initialState traceToBobCheck).rooms "111111").map Room.users =
      some [⟨"sB", "bob"⟩] ∧
    OutEvent.userLeft "111111" "sB" "bob" [⟨"sB", "bob"⟩] ∈
      (run initialState traceToBobCheck).events := by
  decide

/-- **C4.** Refuted on the code: carol disconnects at t = 3 s and rejoins at
t = 10 s — inside her 20-second grace window, with the new socket id `sC2` —
yet in `traceToCarolCheck` her entry has been removed from the room (a side
effect of bob's stale-index splice) and her own check at t = 23 s, finding no
`carol` entry at all, sets `reconnected = false` and emits `user-left` for
her. -/
theorem rejoined_user_still_evicted :
    OutEvent.userLeft "111111" "sC" "carol" [⟨"sB", "bob"⟩] ∈
      (run initialState traceToCarolCheck).events ∧
    (roomsGet (run initialState traceToCarolCheck).rooms "111111").map Room.users =
      some [⟨"sB", "bob"⟩] := by
  decide

/-- **C5 counterexample.** Bob disconnects at t = 2 s and never rejoins, yet
after his departure check fires: his entry is still in the room's user list
(the stale-index splice removed carol instead), the emitted `user-left`'s
`users` payload `[⟨sB, bob⟩]` still contains him, and `lastActivity` is still
10 000 (the time of carol's rejoin) — the check updates no timestamp.  Each
conjunct of the claim fails. -/
theorem departure_check_c5_counterexample :
    roomsGet (run initialState traceToBobCheck).rooms "111111" =
      some ⟨some "en-to-hi", [⟨"sB", "bob"⟩], 0, 10000⟩ ∧
    OutEvent.userLeft "111111" "sB" "bob" [⟨"sB", "bob"⟩] ∈
      (run initialState traceToBobCheck).events := by
  decide

/-- **C6 counterexample.** A room created at t = 0 and never joined has zero
users from birth; at t = 6 min — past the 5-minute long grace window — it is
still in the store (`check-room` answers `exists: true`) and no departure
check or deletion timer is pending that could ever remove it: the 5-minute
deletion is only scheduled from inside a departure check, which requires a
tracked disconnect.  (Only the Janitor reclaims it, after more than one hour
of idleness.) -/
theorem never_joined_room_survives_long_grace :
    checkRoom (run initialState neverJoinedTrace).rooms "222222" = true ∧
    (run initialState neverJoinedTrace).checks = [] ∧
    (run initialState neverJoinedTrace).deletions = [] := by
  decide

/-- **C3.** Confirmed: joining an existing room with a `userName` already in
the user list overwrites that entry's socket id in place (the entry at the
found index keeps its name, gets the new id, and the length is unchanged);
joining with a fresh `userName` appends exactly one entry; in both cases
`lastActivity` is set to the current time, and per-name uniqueness of the
user list is preserved. -/
theorem join_room_spec (st : ServerState) (roomCode userName socketId : String)
    (now : Nat) (room : Room)
    (h : roomsGet st.rooms roomCode = some room) :
    ∃ room',
      roomsGet (joinRoom st roomCode userName socketId now).rooms roomCode = some room' ∧
      room'.users = joinUsers room.users userName socketId ∧
      room'.lastActivity = now ∧
      ((∃ u ∈ room.users, u.name = userName) →
        room'.users.length = room.users.length) ∧
      (∀ i, room.users.findIdx? (fun u => u.name == userName) = some i →
        room'.users.get? i = (room.users.get? i).map (fun u => { u with id := socketId })) ∧
      ((∀ u ∈ room.users, u.name ≠ userName) →
        room'.users = room.users ++ [⟨socketId, userName⟩] ∧
        room'.users.length = room.users.length + 1) ∧
      ((room.users.map User.name).Nodup → (room'.users.map User.name).Nodup) := by
  refine ⟨{ room with users := joinUsers room.users userName socketId, lastActivity := now },
    ?_, rfl, rfl, ?_, ?_, ?_, ?_⟩
  · simp [joinRoom, h, roomsGet_roomsSet_self]
  · exact joinUsers_length_of_present room.users userName socketId
  · intro i hi
    simp only [joinUsers, hi]
    simpa using setUserId_get? room.users i socketId
  · intro habs
    refine ⟨joinUsers_of_absent room.users userName socketId habs, ?_⟩
    rw [joinUsers_of_absent room.users userName socketId habs]
    simp
  · exact joinUsers_names_nodup room.users userName socketId

/-- Witness for `join_room_spec`: a room holding `amy` is joined by `bob`. -/
theorem join_room_spec_witness :
    ∃ room',
      roomsGet (joinRoom ⟨[("5", ⟨none, [⟨"s1", "amy"⟩], 0, 0⟩)], [], [], []⟩
        "5" "bob" "s2" 7).rooms "5" = some room' ∧
      room'.users = joinUsers [⟨"s1", "amy"⟩] "bob" "s2" ∧
      room'.lastActivity = 7 ∧
      ((∃ u ∈ [User.mk "s1" "amy"], u.name = "bob") →
        room'.users.length = [User.mk "s1" "amy"].length) ∧
      (∀ i, [User.mk "s1" "amy"].findIdx? (fun u => u.name == "bob") = some i →
        room'.users.get? i =
          ([User.mk "s1" "amy"].get? i).map (fun u => { u with id := "s2" })) ∧
      ((∀ u ∈ [User.mk "s1" "amy"], u.name ≠ "bob") →
        room'.users = [User.mk "s1" "amy"] ++ [⟨"s2", "bob"⟩] ∧
        room'.users.length = [User.mk "s1" "amy"].length + 1) ∧
      (([User.mk "s1" "amy"].map User.name).Nodup →
        (room'.users.map User.name).Nodup) :=
  join_room_spec ⟨[("5", ⟨none, [⟨"s1", "amy"⟩], 0, 0⟩)], [], [], []⟩
    "5" "bob" "s2" 7 ⟨none, [⟨"s1", "amy"⟩], 0, 0⟩ (by decide)

/-- **C2.** Confirmed: when the remote call fails on every attempt,
`translateText` makes exactly 3 attempts, sleeps `1000 * retries` ms between
them (1 s after the first failure, 2 s after the second — linearly increasing
backoff — and none after the last), and returns the
`[Translation unavailable: …]` placeholder carrying the *last* error's
message.  The function is total (always yields a `TranslateResult`), the
model of the JS promise always resolving: no exception propagates and the
caller is never hung. -/
theorem translateText_all_attempts_fail (text fromLang toLang : String)
    (call : String → String → String → Nat → Except String String)
    (m0 m1 m2 : String)
    (h0 : call text fromLang toLang 0 = Except.error m0)
    (h1 : call text fromLang toLang 1 = Except.error m1)
    (h2 : call text fromLang toLang 2 = Except.error m2) :
    translateText text fromLang toLang call =
      ⟨"[Translation unavailable: " ++ m2 ++ "]", 3, [1000, 2000]⟩ := by
  simp [translateText, translateTextGo, h0, h1, h2]

/-- Witness for `translateText_all_attempts_fail`: a call that always errors
with message `boom`. -/
theorem translateText_all_attempts_fail_witness :
    translateText "Hello" "English" "Hindi" (fun _ _ _ _ => Except.error "boom") =
      ⟨"[Translation unavailable: boom]", 3, [1000, 2000]⟩ :=
  translateText_all_attempts_fail "Hello" "English" "Hindi"
    (fun _ _ _ _ => Except.error "boom") "boom" "boom" "boom" rfl rfl rfl

/-- **C5 (amended).** For a disconnected user who has not rejoined by fire
time (no entry with their name under a different socket id) *and whose
captured index still denotes their entry* — the user list was not reshuffled
by another removal in the interim — the departure check removes exactly that
entry, appends exactly one `user-left` event whose `users` payload (the list
after the splice) contains no entry with the departed name, and leaves the
room's `lastActivity` (and `createdAt`) untouched: the check updates no
timestamp. -/
theorem departure_check_removes_named_entry (st : ServerState) (c : PendingCheck)
    (room : Room) (u : User)
    (hroom : roomsGet st.rooms c.roomCode = some room)
    (hget : room.users.get? c.userIndex = some u)
    (hname : u.name = c.userName)
    (hnodup : (room.users.map User.name).Nodup)
    (hnorec : room.users.any (fun v => v.name == c.userName && v.id != c.socketId) = false) :
    ∃ room',
      roomsGet (fireCheck st c).rooms c.roomCode = some room' ∧
      room'.users = room.users.eraseIdx c.userIndex ∧
      (∀ v ∈ room'.users, v.name ≠ c.userName) ∧
      room'.lastActivity = room.lastActivity ∧
      room'.createdAt = room.createdAt ∧
      (fireCheck st c).events =
        st.events ++ [.userLeft c.roomCode c.socketId c.userName room'.users] := by
  refine ⟨{ room with users := room.users.eraseIdx c.userIndex }, ?_, rfl,
    fun v hv => hname ▸ eraseIdx_name_ne room.users c.userIndex u hget hnodup v hv,
    rfl, rfl, ?_⟩
  · simp only [fireCheck, hroom, hnorec, Bool.false_eq_true, if_false]
    by_cases hlen : (room.users.eraseIdx c.userIndex).length == 0 <;>
      simp [hlen, roomsGet_roomsSet_self]
  · simp only [fireCheck, hroom, hnorec, Bool.false_eq_true, if_false]
    by_cases hlen : (room.users.eraseIdx c.userIndex).length == 0 <;>
      simp [hlen]

/-- Witness for `departure_check_removes_named_entry`: a two-user room in
which `amy`'s check fires with no reconnection. -/
theorem departure_check_removes_named_entry_witness :
    ∃ room',
      roomsGet (fireCheck
          ⟨[("5", ⟨none, [⟨"s1", "amy"⟩, ⟨"s2", "bob"⟩], 0, 40⟩)], [], [], []⟩
          ⟨"5", 0, "amy", "s1", 21000⟩).rooms "5" = some room' ∧
      room'.users = [User.mk "s1" "amy", User.mk "s2" "bob"].eraseIdx 0 ∧
      (∀ v ∈ room'.users, v.name ≠ "amy") ∧
      room'.lastActivity = 40 ∧
      room'.createdAt = 0 ∧
      (fireCheck ⟨[("5", ⟨none, [⟨"s1", "amy"⟩, ⟨"s2", "bob"⟩], 0, 40⟩)], [], [], []⟩
          ⟨"5", 0, "amy", "s1", 21000⟩).events =
        [] ++ [.userLeft "5" "s1" "amy" room'.users] :=
  departure_check_removes_named_entry
    ⟨[("5", ⟨none, [⟨"s1", "amy"⟩, ⟨"s2", "bob"⟩], 0, 40⟩)], [], [], []⟩
    ⟨"5", 0, "amy", "s1", 21000⟩ ⟨none, [⟨"s1", "amy"⟩, ⟨"s2", "bob"⟩], 0, 40⟩
    ⟨"s1", "amy"⟩ (by decide) (by decide) rfl (by decide) (by decide)

/-- **C6 (amended).** The 5-minute long-grace deletion exists only on the
tracked-disconnect path: a departure check whose splice empties the user list
schedules a deletion timer for 5 minutes after its own fire time, and when a
deletion timer fires while the room (re-read from the store) still has zero
users, the room is deleted and `check-room` afterwards answers
`exists: false`.  Rooms that reach zero users without a tracked disconnect —
e.g. created but never joined — get no such timer
(`never_joined_room_survives_long_grace`) and are reclaimed only by the
Janitor sweep once idle for over an hour. -/
theorem empty_room_long_grace_deletion (st : ServerState) (c : PendingCheck)
    (room : Room)
    (hroom : roomsGet st.rooms c.roomCode = some room)
    (hnorec : room.users.any (fun v => v.name == c.userName && v.id != c.socketId) = false)
    (hempty : room.users.eraseIdx c.userIndex = []) :
    (fireCheck st c).deletions = st.deletions ++ [⟨c.roomCode, c.fireTime + 300000⟩] ∧
    ∀ (st' : ServerState) (d : PendingDeletion) (room' : Room),
      roomsGet st'.rooms d.roomCode = some room' → room'.users = [] →
      checkRoom (fireDeletion st' d).rooms d.roomCode = false := by
  constructor
  · simp [fireCheck, hroom, hnorec, hempty]
  · intro st' d room' hroom' hempty'
    simp [fireDeletion, hroom', hempty', checkRoom, roomsGet_roomsDelete_self]

/-- Witness for `empty_room_long_grace_deletion`: a single-user room whose
departure check empties it, and a deletion timer firing on an empty room. -/
theorem empty_room_long_grace_deletion_witness :
    (fireCheck ⟨[("5", ⟨none, [⟨"s1", "amy"⟩], 0, 40⟩)], [], [], []⟩
        ⟨"5", 0, "amy", "s1", 21000⟩).deletions =
      [] ++ [⟨"5", 21000 + 300000⟩] ∧
    checkRoom (fireDeletion ⟨[("5", ⟨none, [], 0, 40⟩)], [], [], []⟩
        ⟨"5", 321000⟩).rooms "5" = false :=
  ⟨(empty_room_long_grace_deletion
      ⟨[("5", ⟨none, [⟨"s1", "amy"⟩], 0, 40⟩)], [], [], []⟩
      ⟨"5", 0, "amy", "s1", 21000⟩ ⟨none, [⟨"s1", "amy"⟩], 0, 40⟩
      (by decide) (by decide) (by decide)).1,
    (empty_room_long_grace_deletion
      ⟨[("5", ⟨none, [⟨"s1", "amy"⟩], 0, 40⟩)], [], [], []⟩
      ⟨"5", 0, "amy", "s1", 21000⟩ ⟨none, [⟨"s1", "amy"⟩], 0, 40⟩
      (by decide) (by decide) (by decide)).2
      ⟨[("5", ⟨none, [], 0, 40⟩)], [], [], []⟩ ⟨"5", 321000⟩
      ⟨none, [], 0, 40⟩ (by decide) rfl⟩

/-- **C7.** Confirmed: a `(code, room)` binding survives the cleanup sweep at
time `now` exactly when it was in the store and it is *not* the case that its
idle time `now - lastActivity` exceeds one hour (3 600 000 ms) while its user
list is empty — so the sweep deletes precisely the over-an-hour-idle empty
rooms and leaves every other binding unchanged. -/
theorem cleanup_sweep_mem_iff (now : Nat) (rs : Rooms) (code : String) (room : Room) :
    (code, room) ∈ cleanupSweep now rs ↔
      ((code, room) ∈ rs ∧
        ¬(now - room.lastActivity > 3600000 ∧ room.users.length = 0)) := by
  simp [cleanupSweep, List.mem_filter, Decidable.not_and_iff_or_not]
  intro _
  constructor
  · rintro (h1 | h2) h3
    · omega
    · exact h2
  · intro h
    by_cases hA : 3600000 < now - room.lastActivity
    · exact Or.inr (h hA)
    · exact Or.inl (by omega)

/-- **C8.** Confirmed: on `speech-data` for an existing room the handler
appends exactly one `translated-speech` broadcast whose `originalText` is the
incoming text, whose `userId` is the sender's socket id, and whose
`translatedText` was produced by `translateText` invoked with exactly the
pair resolved from the room's `translationDirection` (`en-to-hi` ↦
English→Hindi, the reverse direction ↦ Hindi→English); the
`socket.to(room)` delivery semantics excludes the sender from the recipients
while reaching every other member. -/
theorem speech_data_spec (st : ServerState) (senderId roomCode text : String)
    (call : String → String → String → Nat → Except String String)
    (now : Nat) (room : Room)
    (h : roomsGet st.rooms roomCode = some room) :
    (speechData st senderId roomCode text call now).events =
      st.events ++ [.translatedSpeech roomCode senderId text
        (translateText text (resolveLangs room.translationDirection).1
          (resolveLangs room.translationDirection).2 call).result] ∧
    resolveLangs (some "en-to-hi") = ("English", "Hindi") ∧
    resolveLangs (some "hi-to-en") = ("Hindi", "English") ∧
    ∀ members : List String,
      senderId ∉ broadcastRecipients members senderId ∧
      ∀ m ∈ members, m ≠ senderId → m ∈ broadcastRecipients members senderId := by
  refine ⟨?_, rfl, by decide, ?_⟩
  · simp [speechData, h]
  · intro members
    refine ⟨by simp [broadcastRecipients], ?_⟩
    intro m hm hne
    simp [broadcastRecipients, hm, hne]

/-- Witness for `speech_data_spec`: an `en-to-hi` room and an always-failing
remote call (the degraded placeholder is still broadcast, not an error). -/
theorem speech_data_spec_witness :
    (speechData ⟨[("5", ⟨some "en-to-hi", [⟨"s1", "amy"⟩, ⟨"s2", "bob"⟩], 0, 0⟩)], [], [], []⟩
        "s1" "5" "Hello" (fun _ _ _ _ => Except.error "boom") 9).events =
      [] ++ [.translatedSpeech "5" "s1" "Hello"
        (translateText "Hello" (resolveLangs (some "en-to-hi")).1
          (resolveLangs (some "en-to-hi")).2 (fun _ _ _ _ => Except.error "boom")).result] ∧
    resolveLangs (some "en-to-hi") = ("English", "Hindi") ∧
    resolveLangs (some "hi-to-en") = ("Hindi", "English") ∧
    ∀ members : List String,
      "s1" ∉ broadcastRecipients members "s1" ∧
      ∀ m ∈ members, m ≠ "s1" → m ∈ broadcastRecipients members "s1" :=
  speech_data_spec
    ⟨[("5", ⟨some "en-to-hi", [⟨"s1", "amy"⟩, ⟨"s2", "bob"⟩], 0, 0⟩)], [], [], []⟩
    "s1" "5" "Hello" (fun _ _ _ _ => Except.error "boom") 9
    ⟨some "en-to-hi", [⟨"s1", "amy"⟩, ⟨"s2", "bob"⟩], 0, 0⟩ (by decide)

/-- **C9.** Confirmed: `POST /api/create-room` performs no collision check —
when the generated code already keys a live room, `rooms.set` silently
replaces that room with a fresh one (empty user list, both timestamps set to
now, the new request's direction), and the response still carries the reused
code exactly as for a genuinely new room. -/
theorem create_room_overwrites_collision (st : ServerState) (r : Nat)
    (dir : Option String) (now : Nat) (old : Room)
    (_h : roomsGet st.rooms (generateRoomCode r) = some old) :
    (createRoom st (generateRoomCode r) dir now).2 = generateRoomCode r ∧
    roomsGet (createRoom st (generateRoomCode r) dir now).1.rooms
      (generateRoomCode r) = some ⟨dir, [], now, now⟩ :=
  ⟨rfl, roomsGet_roomsSet_self st.rooms (generateRoomCode r) ⟨dir, [], now, now⟩⟩

/-- Witness for `create_room_overwrites_collision`: the store already holds a
populated room under code `100000` (= `generateRoomCode 0`); re-creation
discards its user and state. -/
theorem create_room_overwrites_collision_witness :
    (createRoom ⟨[("100000", ⟨some "en-to-hi", [⟨"s1", "amy"⟩], 1, 2⟩)], [], [], []⟩
        (generateRoomCode 0) (some "hi-to-en") 9).2 = generateRoomCode 0 ∧
    roomsGet (createRoom ⟨[("100000", ⟨some "en-to-hi", [⟨"s1", "amy"⟩], 1, 2⟩)], [], [], []⟩
        (generateRoomCode 0) (some "hi-to-en") 9).1.rooms
      (generateRoomCode 0) = some ⟨some "hi-to-en", [], 9, 9⟩ :=
  create_room_overwrites_collision
    ⟨[("100000", ⟨some "en-to-hi", [⟨"s1", "amy"⟩], 1, 2⟩)], [], [], []⟩
    0 (some "hi-to-en") 9 ⟨some "en-to-hi", [⟨"s1", "amy"⟩], 1, 2⟩ (by decide)

/-- **C10.** Confirmed: the `speech-data` direction test is a single equality
against the string `en-to-hi`; every other `translationDirection` — the
`hi-to-en` value, any unrecognized string, or an absent one — falls to the
`else` branch and resolves to Hindi→English, and the handler still appends a
normal `translated-speech` broadcast (no error event, no rejection). -/
theorem speech_data_fallback_direction (st : ServerState)
    (senderId roomCode text : String)
    (call : String → String → String → Nat → Except String String)
    (now : Nat) (room : Room)
    (h : roomsGet st.rooms roomCode = some room)
    (hdir : room.translationDirection ≠ some "en-to-hi") :
    resolveLangs room.translationDirection = ("Hindi", "English") ∧
    (speechData st senderId roomCode text call now).events =
      st.events ++ [.translatedSpeech roomCode senderId text
        (translateText text "Hindi" "English" call).result] := by
  have hb : (room.translationDirection == some "en-to-hi") = false :=
    beq_false_of_ne hdir
  refine ⟨by simp [resolveLangs, hb], ?_⟩
  simp [speechData, h, resolveLangs, hb]

/-- Witness for `speech_data_fallback_direction`: a room whose direction is
absent (`undefined` in the request body) still translates Hindi→English. -/
theorem speech_data_fallback_direction_witness :
    resolveLangs (none : Option String) = ("Hindi", "English") ∧
    (speechData ⟨[("7", ⟨none, [⟨"s1", "amy"⟩], 0, 0⟩)], [], [], []⟩
        "s1" "7" "Namaste" (fun _ _ _ _ => Except.ok "Hello") 4).events =
      [] ++ [.translatedSpeech "7" "s1" "Namaste"
        (translateText "Namaste" "Hindi" "English"
          (fun _ _ _ _ => Except.ok "Hello")).result] :=
  speech_data_fallback_direction
    ⟨[("7", ⟨none, [⟨"s1", "amy"⟩], 0, 0⟩)], [], [], []⟩
    "s1" "7" "Namaste" (fun _ _ _ _ => Except.ok "Hello") 4
    ⟨none, [⟨"s1", "amy"⟩], 0, 0⟩ (by decide) (by decide)

end VoxTranslate
